import Mathlib

/-!
Verification of the `tell` CLI (natural language to shell commands).

This file shallowly embeds the Python sources `src/tell/utils.py` and
`src/tell/cli.py` into Lean.  Pure string manipulation is modelled over
`List Char` (Python `str.strip`, `str.lower`, slicing); the history file on
disk is modelled by an explicit `HistFile` state (absent / corrupt /
stored); the remote model call, the confirmation prompt and the executed
command's exit status are oracle parameters.  Theorems at the end settle
the specification claims.
-/

namespace Tell

/-! ## Python string primitives over `List Char` -/

/-- Python `str.strip()` whitespace set: space, tab, newline, carriage
return, vertical tab, form feed, the separator controls 0x1c-0x1f, and
the Unicode space characters CPython treats as whitespace. -/
def pyIsSpace (c : Char) : Bool :=
  c = ' ' || c = '\t' || c = '\n' || c = '\r' || c = '\x0b' || c = '\x0c' ||
  (0x1c ≤ c.toNat && c.toNat ≤ 0x1f) || c.toNat = 0x85 || c.toNat = 0xa0 ||
  c.toNat = 0x1680 || (0x2000 ≤ c.toNat && c.toNat ≤ 0x200a) ||
  c.toNat = 0x2028 || c.toNat = 0x2029 || c.toNat = 0x202f ||
  c.toNat = 0x205f || c.toNat = 0x3000

/-- Drop the longest run of characters satisfying `p` from the front. -/
def lstripBy (p : Char → Bool) (l : List Char) : List Char := l.dropWhile p

/-- Drop the longest run of characters satisfying `p` from the back. -/
def rstripBy (p : Char → Bool) (l : List Char) : List Char :=
  (l.reverse.dropWhile p).reverse

/-- Python `str.strip(chars)`: drop runs satisfying `p` from both ends. -/
def stripBy (p : Char → Bool) (l : List Char) : List Char :=
  rstripBy p (lstripBy p l)

/-- The backtick character (code point 96). -/
def backtick : Char := '\x60'

/-- A fenced-code delimiter: three backticks. -/
def fence : List Char := [backtick, backtick, backtick]

/-- Python `s.strip()` (no argument): strip surrounding whitespace. -/
def pyStrip (l : List Char) : List Char := stripBy pyIsSpace l

/-- String-level wrapper of `pyStrip`. -/
def pyStripS (s : String) : String := ⟨pyStrip s.data⟩

/-- Python `s.lower()` (ASCII-relevant part): lowercase each character. -/
def pyLower (s : String) : String := ⟨s.data.map Char.toLower⟩

/-! ## `strip_command` (cli.py lines 73-79)

```python
def strip_command(command: str) -> str:
    cleaned = command.strip()
    if cleaned.startswith("```"):
        cleaned = "\n".join(cleaned.split("\n")[1:])
    if cleaned.endswith("```"):
        cleaned = cleaned.rsplit("```", 1)[0]
    return cleaned.strip().strip("`")
```

`"\n".join(cleaned.split("\n")[1:])` is everything after the first newline
(empty when there is none), i.e. `(dropWhile (· ≠ newline)).tail`.  Under
the `endswith("```")` guard the last occurrence of the fence is exactly the
final three characters, so `rsplit("```", 1)[0]` removes them. -/

def strip_command (l : List Char) : List Char :=
  let c1 := pyStrip l
  let c2 :=
    if fence.isPrefixOf c1 then (c1.dropWhile (fun c => ¬(c = '\n'))).tail else c1
  let c3 := if fence.isSuffixOf c2 then c2.take (c2.length - 3) else c2
  stripBy (fun c => c = backtick) (pyStrip c3)

/-- String-level wrapper of `strip_command`. -/
def strip_command_str (s : String) : String := ⟨strip_command s.data⟩

/-! ## History store (utils.py) -/

/-- One conversation turn: `{"role": ..., "content": ...}`. -/
structure Turn where
  role : String
  content : String
deriving DecidableEq

/-- An ordered conversation log. -/
abbrev History := List Turn

/-- utils.py: `MAX_HISTORY = 10`. -/
def MAX_HISTORY : Nat := 10

/-- State of the backing file `~/.tell/history.json`: missing, present
but failing with one of the exceptions the loader catches
(json.JSONDecodeError / IOError), or holding a parsed log.  This covers
exactly the states on which `load_history` returns normally; the states
on which it raises an uncaught exception (invalid UTF-8, excessive
nesting) are modelled separately by `load_history_exc` below, and
`load_history_exc_agrees` relates the two models on the shared states. -/
inductive HistFile where
  | absent
  | corrupt
  | stored (turns : History)
deriving DecidableEq

/-- Whether the backing file exists: `HISTORY_FILE.exists()`. -/
def HistFile.fileExists : HistFile → Bool
  | .absent => false
  | .corrupt => true
  | .stored _ => true

/-- utils.py `load_history`: `[]` when the file is missing; the parsed
content otherwise, with parse/IO errors swallowed into `[]`. -/
def load_history : HistFile → History
  | .absent => []
  | .corrupt => []
  | .stored turns => turns

/-- utils.py `save_history`: write `messages[-MAX_HISTORY:]` to the file
(overwriting whatever state it had). -/
def save_history (messages : History) : HistFile :=
  HistFile.stored (messages.drop (messages.length - MAX_HISTORY))

/-- utils.py `clear_history`: delete the file if it exists, otherwise do
nothing. -/
def clear_history (fs : HistFile) : HistFile :=
  if fs.fileExists then HistFile.absent else fs

/-- Exceptions `open` + `json.load` can raise on an existing history
file.  `jsonDecodeError` (malformed JSON) and `ioError` (read failure)
are the two classes named in the `except` clause of `load_history`;
`unicodeDecodeError` (the file's bytes are not valid UTF-8; a
`ValueError` subclass but not a `json.JSONDecodeError`) and
`recursionError` (JSON nested beyond the interpreter recursion limit)
are raised by the same calls but fall outside both named classes. -/
inductive PyExc where
  | jsonDecodeError
  | ioError
  | unicodeDecodeError
  | recursionError
deriving DecidableEq

/-- Whether `except (json.JSONDecodeError, IOError)` catches the
exception. -/
def caughtByLoad : PyExc → Bool
  | PyExc.jsonDecodeError => true
  | PyExc.ioError => true
  | PyExc.unicodeDecodeError => false
  | PyExc.recursionError => false

/-- utils.py `load_history` over a fine-grained file model.  `none` is a
missing file (the `exists` check returns `[]`); `some (Except.ok turns)`
a file whose bytes parse to `turns`; `some (Except.error e)` a file on
which `open` + `json.load` raises `e`.  The result is `Except.error e`
exactly when `e` escapes the `except (json.JSONDecodeError, IOError)`
clause, i.e. when the call to `load_history` itself raises. -/
def load_history_exc (file : Option (Except PyExc History)) :
    Except PyExc History :=
  match file with
  | none => Except.ok []
  | some (Except.ok turns) => Except.ok turns
  | some (Except.error e) =>
    if caughtByLoad e then Except.ok [] else Except.error e

/-! ## Directory context sampler (cli.py lines 49-60) -/

/-- cli.py `get_directory_context`.  The directory listing is an oracle:
`none` models an `os.listdir` failure (the `except` branch), `some entries`
the returned names. -/
def get_directory_context (listing : Option (List String)) (max_files : Nat) :
    String :=
  match listing with
  | none => "(Could not read directory)"
  | some entries =>
    let files :=
      (entries.filter (fun f => !(f.startsWith "."))).mergeSort
        (fun a b => a ≤ b)
    if files.length > max_files then
      String.intercalate ", " (files.take max_files) ++
        ", ... (+" ++ toString (files.length - max_files) ++ " more)"
    else if files.length = 0 then "(Empty Directory)"
    else String.intercalate ", " files

/-- Modelled from the claim wording of the directory sampler, for
comparison with `get_directory_context`: exclude names beginning with a
dot, sort lexicographically, comma-join; if the visible count exceeds
`maxEntries`, keep the first `maxEntries` and append the omitted count;
return the placeholder on zero visible entries, and a fixed placeholder
for an unreadable directory. -/
def sampleDirectory (listing : Option (List String)) (maxEntries : Nat) :
    String :=
  match listing with
  | none => "(Could not read directory)"
  | some entries =>
    let visible :=
      (entries.filter (fun f => !(f.startsWith "."))).mergeSort
        (fun a b => a ≤ b)
    if visible.length = 0 then "(Empty Directory)"
    else if visible.length > maxEntries then
      String.intercalate ", " (visible.take maxEntries) ++
        ", ... (+" ++ toString (visible.length - maxEntries) ++ " more)"
    else String.intercalate ", " visible

/-! ## Command generation and the one-shot / interactive flows (cli.py) -/

/-- The user turn appended by `generate_command`: content is
`prompt.strip()`. -/
def turnUser (prompt : String) : Turn := ⟨"user", pyStripS prompt⟩

/-- The assistant turn appended by `generate_command`: content is the
cleaned command. -/
def turnAssistant (command : String) : Turn := ⟨"assistant", command⟩

/-- cli.py `generate_command` (lines 103-140).  `response` is the model
oracle: `none` models a transport/API exception, `some content` the
response text (`content or ""` collapses a null body to `""`).  Returns
`Except.error c` when the function raises `typer.Exit(code=c)`, otherwise
the cleaned command together with the new history-file state after the
save. -/
def generate_command (prompt : String) (response : Option String)
    (fs : HistFile) : Except Nat (String × HistFile) :=
  let history := load_history fs
  match response with
  | none => Except.error 1
  | some content =>
    let command := strip_command_str content
    if command = "" then Except.error 1
    else
      Except.ok
        (command,
         save_history (history ++ [turnUser prompt, turnAssistant command]))

/-- Observable outcome of one `handle_prompt` call. -/
structure PromptOutcome where
  /-- the history-file state at the moment `Confirm.ask` runs;
  `none` = generation failed and the prompt was never shown. -/
  fsAtConfirm : Option HistFile
  /-- whether `run_command` was invoked -/
  executorInvoked : Bool
  /-- the raised code when the call raises `typer.Exit(code=c)`, `none` on a
  normal return -/
  exitCode : Option Int
  /-- history-file state when the call ends -/
  finalFs : HistFile
deriving DecidableEq

/-- cli.py `handle_prompt` (lines 159-179).  `confirm` is the user's
answer to `Confirm.ask`; `runResult` is the oracle for the executed
command's exit status. -/
def handle_prompt (prompt : String) (response : Option String)
    (confirm : Bool) (runResult : Int) (exit_on_abort : Bool)
    (fs : HistFile) : PromptOutcome :=
  match generate_command prompt response fs with
  | Except.error c => ⟨none, false, some (Int.ofNat c), fs⟩
  | Except.ok (_, fs2) =>
    if !confirm then
      ⟨some fs2, false, if exit_on_abort then some 0 else none, fs2⟩
    else
      ⟨some fs2, true,
       if runResult ≠ 0 ∧ exit_on_abort then some runResult else none, fs2⟩

/-- The process exit status of a one-shot cycle: the raised exit code, or
0 on a normal return from `main`. -/
def oneShotExitCode (o : PromptOutcome) : Int := o.exitCode.getD 0

/-- What the interactive loop does with one line of input. -/
inductive StepAction where
  | stop
  | skip
  | clearHist
  | runPrompt (prompt : String)
deriving DecidableEq

/-- The dispatch at the top of each iteration of cli.py `interactive_loop`
(lines 182-202). -/
def interactive_step (input : String) : StepAction :=
  if pyStripS input = "" then StepAction.skip
  else if pyLower (pyStripS input) = "exit" ∨ pyLower (pyStripS input) = "quit"
    then StepAction.stop
  else if pyLower (pyStripS input) = "clear" then StepAction.clearHist
  else StepAction.runPrompt input

/-- cli.py `interactive_loop`, run over a finite list of input lines
(exhaustion models EOF / interrupt, which breaks the loop).  `gen` is an
oracle for the state change a `handle_prompt` call makes; the returned
list records the prompts actually handed to it, oldest first. -/
def interactive_loop (inputs : List String)
    (gen : String → HistFile → HistFile) (fs : HistFile) :
    HistFile × List String :=
  match inputs with
  | [] => (fs, [])
  | i :: rest =>
    match interactive_step i with
    | StepAction.stop => (fs, [])
    | StepAction.skip => interactive_loop rest gen fs
    | StepAction.clearHist => interactive_loop rest gen (clear_history fs)
    | StepAction.runPrompt p =>
      let out := interactive_loop rest gen (gen p fs)
      (out.1, p :: out.2)

/-- Which mode cli.py `main` (lines 205-230) enters. -/
inductive MainOutcome where
  | clearedExit
  | unsupportedPlatform
  | interactiveMode
  | oneShotMode (prompt : String)
deriving DecidableEq

/-- cli.py `main`: `--clear` first, then the platform gate
(`detect_os`), then `interactive or prompt is None` chooses the REPL,
otherwise one-shot with the given prompt. -/
def main_command (prompt : Option String) (interactive : Bool)
    (clear : Bool) (osLinux : Bool) : MainOutcome :=
  if clear then MainOutcome.clearedExit
  else if !osLinux then MainOutcome.unsupportedPlatform
  else if interactive || prompt.isNone then MainOutcome.interactiveMode
  else MainOutcome.oneShotMode (prompt.getD "")

/-! ## Theorems -/

/-- C2: for every list of turns, saving then loading returns exactly the
last `min(length, MAX_HISTORY)` turns in their original relative order:
the loaded log is the suffix `msgs.drop (msgs.length - MAX_HISTORY)`, its
length is `min msgs.length MAX_HISTORY` (hence at most 10 after every
save), and what was dropped is precisely the oldest prefix, so truncation
is FIFO. -/
theorem save_then_load_roundtrip (msgs : History) :
    load_history (save_history msgs) = msgs.drop (msgs.length - MAX_HISTORY) ∧
    (load_history (save_history msgs)).length = min msgs.length MAX_HISTORY ∧
    (load_history (save_history msgs)).length ≤ MAX_HISTORY ∧
    msgs.take (msgs.length - MAX_HISTORY) ++ load_history (save_history msgs)
      = msgs := by
  have h1 : load_history (save_history msgs)
      = msgs.drop (msgs.length - MAX_HISTORY) := rfl
  refine ⟨h1, ?_, ?_, ?_⟩
  · rw [h1, List.length_drop]; omega
  · rw [h1, List.length_drop, MAX_HISTORY]; omega
  · rw [h1]; exact List.take_append_drop _ _

/-- On every state where `load_history` returns normally — a missing
file, a file failing with a caught exception, a parsed file — the
fine-grained model agrees with the coarse `HistFile` model, so the
claims stated over `HistFile` are about the non-raising restriction of
the loader. -/
theorem load_history_exc_agrees :
    load_history_exc none = Except.ok (load_history HistFile.absent) ∧
    (∀ e, caughtByLoad e = true →
      load_history_exc (some (Except.error e))
        = Except.ok (load_history HistFile.corrupt)) ∧
    ∀ ts, load_history_exc (some (Except.ok ts))
      = Except.ok (load_history (HistFile.stored ts)) := by
  refine ⟨rfl, ?_, fun ts => rfl⟩
  intro e he
  simp [load_history_exc, he, load_history]

/-- C8 counterexample: a history file whose bytes are not valid UTF-8
makes `json.load` raise UnicodeDecodeError, which the
`except (json.JSONDecodeError, IOError)` clause does not catch: loading
raises instead of returning the empty sequence, so corrupt history can
cause the load to fail. -/
theorem load_crashes_on_invalid_utf8 :
    load_history_exc (some (Except.error PyExc.unicodeDecodeError))
      = Except.error PyExc.unicodeDecodeError ∧
    load_history_exc (some (Except.error PyExc.unicodeDecodeError))
      ≠ Except.ok [] := by
  refine ⟨rfl, ?_⟩
  intro h
  exact Except.noConfusion h

/-- C8 (amended): load returns the empty sequence when the backing file
is missing or its contents fail with one of the two caught exception
classes — json.JSONDecodeError and IOError are swallowed, never
propagated.  A parse failure outside the caught set (UnicodeDecodeError
on invalid UTF-8 bytes, RecursionError on deeply nested JSON)
propagates out of load, so corrupt history can make the load fail. -/
theorem load_history_exception_policy :
    load_history_exc none = Except.ok [] ∧
    (∀ e, caughtByLoad e = true →
      load_history_exc (some (Except.error e)) = Except.ok []) ∧
    (∀ e, caughtByLoad e = false →
      load_history_exc (some (Except.error e)) = Except.error e) ∧
    caughtByLoad PyExc.jsonDecodeError = true ∧
    caughtByLoad PyExc.ioError = true ∧
    caughtByLoad PyExc.unicodeDecodeError = false ∧
    caughtByLoad PyExc.recursionError = false := by
  refine ⟨rfl, ?_, ?_, rfl, rfl, rfl, rfl⟩
  · intro e he
    simp [load_history_exc, he]
  · intro e he
    simp [load_history_exc, he]

/-- Witness for `load_history_exception_policy`: a malformed-JSON file
is swallowed into the empty history, an invalid-UTF-8 file raises. -/
theorem load_history_exception_policy_witness :
    load_history_exc (some (Except.error PyExc.jsonDecodeError))
      = Except.ok [] ∧
    load_history_exc (some (Except.error PyExc.unicodeDecodeError))
      = Except.error PyExc.unicodeDecodeError :=
  ⟨load_history_exception_policy.2.1 PyExc.jsonDecodeError rfl,
   load_history_exception_policy.2.2.1 PyExc.unicodeDecodeError rfl⟩

/-- C9: clearing deletes the history file when it exists and leaves the
state absent when it already was (a no-op, never an error), and in every
case a subsequent load returns the empty sequence. -/
theorem clear_then_load_empty (fs : HistFile) :
    clear_history fs = HistFile.absent ∧
    load_history (clear_history fs) = [] := by
  cases fs <;> exact ⟨rfl, rfl⟩

/-- C10: with no prompt argument, no `--interactive` flag and no
`--clear` flag (on a supported platform), the program enters interactive
mode; one-shot mode is entered exactly when a prompt argument is supplied
and neither `--interactive` nor `--clear` is requested. -/
theorem main_mode_dispatch (p : Option String) (i c : Bool) :
    (c = false → i = false → p = none →
      main_command p i c true = MainOutcome.interactiveMode) ∧
    (∀ s : String, main_command p i c true = MainOutcome.oneShotMode s ↔
      (p = some s ∧ i = false ∧ c = false)) := by
  constructor
  · rintro rfl rfl rfl; rfl
  · intro s
    cases c <;> cases i <;> cases p <;> simp [main_command]

/-- Witness for `main_mode_dispatch` at the all-defaults invocation. -/
theorem main_mode_dispatch_witness :
    main_command none false false true = MainOutcome.interactiveMode :=
  (main_mode_dispatch none false false).1 rfl rfl rfl

/-- C5: in the interactive loop, input equal to "exit" or "quit" after
trimming and lowercasing terminates the loop (the remaining inputs are
never processed and the state is untouched); empty or whitespace-only
input continues the loop with no side effects; input "clear" (after trim,
case-insensitive) replaces the state by the cleared one and continues,
and the generator oracle is never invoked on it (the recorded prompt list
is that of the remaining inputs alone). -/
theorem interactive_loop_controls (s : String) (rest : List String)
    (gen : String → HistFile → HistFile) (fs : HistFile) :
    ((pyLower (pyStripS s) = "exit" ∨ pyLower (pyStripS s) = "quit") →
      interactive_loop (s :: rest) gen fs = (fs, [])) ∧
    (pyStripS s = "" →
      interactive_loop (s :: rest) gen fs = interactive_loop rest gen fs) ∧
    (pyLower (pyStripS s) = "clear" →
      interactive_loop (s :: rest) gen fs
        = interactive_loop rest gen (clear_history fs)) := by
  refine ⟨?_, ?_, ?_⟩
  · intro h
    have hne : ¬ (pyStripS s = "") := by
      intro he; rw [he] at h
      rcases h with h | h <;> exact absurd h (by decide)
    simp [interactive_loop, interactive_step, hne, h]
  · intro h
    simp [interactive_loop, interactive_step, h]
  · intro h
    have hne : ¬ (pyStripS s = "") := by
      intro he; rw [he] at h; exact absurd h (by decide)
    have hne2 : ¬ (pyLower (pyStripS s) = "exit"
        ∨ pyLower (pyStripS s) = "quit") := by
      rintro (h2 | h2) <;> rw [h] at h2 <;> exact absurd h2 (by decide)
    simp [interactive_loop, interactive_step, hne, hne2, h]

/-- Witness for `interactive_loop_controls` on concrete inputs. -/
theorem interactive_loop_controls_witness :
    interactive_loop [" EXIT ", "ls"] (fun _ f => f) HistFile.absent
      = (HistFile.absent, []) ∧
    interactive_loop ["   "] (fun _ f => f) (HistFile.stored [])
      = interactive_loop [] (fun _ f => f) (HistFile.stored []) ∧
    interactive_loop ["Clear"] (fun _ f => f) (HistFile.stored [])
      = interactive_loop [] (fun _ f => f)
          (clear_history (HistFile.stored [])) :=
  ⟨(interactive_loop_controls " EXIT " ["ls"] _ _).1 (Or.inl (by decide)),
   (interactive_loop_controls "   " [] _ _).2.1 (by decide),
   (interactive_loop_controls "Clear" [] _ _).2.2 (by decide)⟩

/-- C6: the directory sampler agrees, on every listing and every bound,
with the function read off the claim: hidden entries (leading dot)
excluded, remaining names sorted (lexicographic string order) and
comma-joined; above `maxEntries` visible entries the first `maxEntries`
are kept and ", ... (+K more)" is appended with K the omitted count; zero
visible entries give the empty-directory placeholder and an unreadable
directory its own fixed placeholder. -/
theorem get_directory_context_eq_sample (listing : Option (List String))
    (m : Nat) : get_directory_context listing m = sampleDirectory listing m := by
  have key : ∀ (n k : Nat) (A B C : String),
      (if n > k then A else if n = 0 then B else C)
        = (if n = 0 then B else if n > k then A else C) := by
    intro n k A B C
    by_cases h0 : n = 0
    · subst h0; simp
    · by_cases hk : n > k <;> simp [h0, hk]
  cases listing with
  | none => rfl
  | some entries =>
    simp only [get_directory_context, sampleDirectory]
    exact key _ _ _ _ _

/-- C1: in one-shot mode (`exit_on_abort = true`), once generation has
succeeded, declining the confirmation never invokes the executor and the
process exit status is 0, for every possible executed-command exit
status; confirming makes the process exit status equal to the executed
command's exit status (in particular any non-zero status such as 3 is
propagated). -/
theorem oneShot_confirm_exit (prompt : String) (response : Option String)
    (fs : HistFile) (cmd : String) (fs2 : HistFile)
    (hgen : generate_command prompt response fs = Except.ok (cmd, fs2)) :
    (∀ r : Int,
      (handle_prompt prompt response false r true fs).executorInvoked = false ∧
      oneShotExitCode (handle_prompt prompt response false r true fs) = 0) ∧
    (∀ r : Int,
      (handle_prompt prompt response true r true fs).executorInvoked = true ∧
      oneShotExitCode (handle_prompt prompt response true r true fs) = r) := by
  constructor
  · intro r
    simp [handle_prompt, hgen, oneShotExitCode]
  · intro r
    by_cases hr : r = 0 <;>
      simp [handle_prompt, hgen, oneShotExitCode, hr]

/-- Witness for `oneShot_confirm_exit`: declining leaves exit code 0 and
skips the executor; confirming a command that exits 3 exits 3. -/
theorem oneShot_confirm_exit_witness :
    (handle_prompt "list files" (some "ls") false 3 true
        HistFile.absent).executorInvoked = false ∧
    oneShotExitCode (handle_prompt "list files" (some "ls") false 3 true
        HistFile.absent) = 0 ∧
    oneShotExitCode (handle_prompt "list files" (some "ls") true 3 true
        HistFile.absent) = 3 := by
  have hgen : generate_command "list files" (some "ls") HistFile.absent
      = Except.ok ("ls", HistFile.stored [turnUser "list files",
          turnAssistant "ls"]) := by rfl
  exact ⟨((oneShot_confirm_exit _ _ _ _ _ hgen).1 3).1,
    ((oneShot_confirm_exit _ _ _ _ _ hgen).1 3).2,
    ((oneShot_confirm_exit _ _ _ _ _ hgen).2 3).2⟩

/-- C7: whenever generation succeeds, the new file state already contains
the loaded history extended with the user turn and the assistant turn
(whose content is the cleaned command), and in `handle_prompt` that state
is both the state in effect when the confirmation prompt is asked and the
final state — for every confirmation answer, run result and mode, so the
two turns are persisted whether or not the user confirms. -/
theorem generate_persists_before_confirm (prompt content : String)
    (fs : HistFile) (cmd : String) (fs2 : HistFile)
    (hgen : generate_command prompt (some content) fs
      = Except.ok (cmd, fs2)) :
    fs2 = save_history
      (load_history fs ++ [turnUser prompt, turnAssistant cmd]) ∧
    ∀ (confirm : Bool) (r : Int) (eoa : Bool),
      (handle_prompt prompt (some content) confirm r eoa fs).fsAtConfirm
        = some fs2 ∧
      (handle_prompt prompt (some content) confirm r eoa fs).finalFs
        = fs2 := by
  have h2 := hgen
  simp only [generate_command] at h2
  constructor
  · split at h2
    · exact absurd h2 (by simp)
    · rw [Except.ok.injEq, Prod.mk.injEq] at h2
      rw [← h2.1, ← h2.2]
  · intro confirm r eoa
    cases confirm <;> simp [handle_prompt, hgen]

/-- Witness for `generate_persists_before_confirm` at a declined
confirmation: both turns are in the persisted state. -/
theorem generate_persists_before_confirm_witness :
    HistFile.stored [turnUser "p", turnAssistant "ls"]
      = save_history (load_history HistFile.absent
          ++ [turnUser "p", turnAssistant "ls"]) ∧
    (handle_prompt "p" (some "ls") false 7 true
        HistFile.absent).fsAtConfirm
      = some (HistFile.stored [turnUser "p", turnAssistant "ls"]) ∧
    (handle_prompt "p" (some "ls") false 7 true HistFile.absent).finalFs
      = HistFile.stored [turnUser "p", turnAssistant "ls"] := by
  have hgen : generate_command "p" (some "ls") HistFile.absent
      = Except.ok ("ls", HistFile.stored [turnUser "p", turnAssistant "ls"])
      := by rfl
  have h := generate_persists_before_confirm "p" "ls" HistFile.absent "ls" _
    hgen
  exact ⟨h.1, (h.2 false 7 true).1, (h.2 false 7 true).2⟩

/-! ## Structure of `strip_command` output -/

/-- A character surviving at the head of a `dropWhile p` fails `p`. -/
theorem head?_dropWhile_false (p : Char → Bool) :
    ∀ (l : List Char) (c : Char), (l.dropWhile p).head? = some c →
      p c = false := by
  intro l
  induction l with
  | nil => intro c hc; simp [List.dropWhile] at hc
  | cons a t ih =>
    intro c hc
    rw [List.dropWhile_cons] at hc
    by_cases hp : p a
    · rw [if_pos hp] at hc
      exact ih c hc
    · rw [if_neg hp] at hc
      rw [List.head?_cons] at hc
      injection hc with hc
      subst hc
      exact Bool.not_eq_true _ |>.mp hp

/-- The head of `stripBy p l`, when present, fails `p`. -/
theorem stripBy_head (p : Char → Bool) (l : List Char) (c : Char)
    (h : (stripBy p l).head? = some c) : p c = false := by
  unfold stripBy rstripBy lstripBy at h
  set x := l.dropWhile p with hx
  obtain ⟨t, ht⟩ : (x.reverse.dropWhile p) <:+ x.reverse :=
    List.dropWhile_suffix p
  have hxx : x = (x.reverse.dropWhile p).reverse ++ t.reverse := by
    have h2 := congrArg List.reverse ht
    rw [List.reverse_append, List.reverse_reverse] at h2
    exact h2.symm
  have hhx : x.head? = some c := by
    rw [hxx]
    cases hcase : (x.reverse.dropWhile p).reverse with
    | nil => rw [hcase] at h; simp at h
    | cons a t2 =>
      rw [hcase] at h
      rw [List.head?_cons] at h
      simpa using h
  exact head?_dropWhile_false p l c (hx ▸ hhx)

/-- The last character of `stripBy p l`, when present, fails `p`. -/
theorem stripBy_last (p : Char → Bool) (l : List Char) (c : Char)
    (h : (stripBy p l).getLast? = some c) : p c = false := by
  unfold stripBy rstripBy lstripBy at h
  rw [List.getLast?_eq_head?_reverse, List.reverse_reverse] at h
  exact head?_dropWhile_false p _ c h

/-- Dropping by `p` from the front is the identity when the head (if any) fails `p`. -/
theorem dropWhile_eq_self_of_head (p : Char → Bool) (l : List Char)
    (h : ∀ c, l.head? = some c → p c = false) : l.dropWhile p = l := by
  cases l with
  | nil => rfl
  | cons a t =>
    rw [List.dropWhile_cons, if_neg]
    have := h a (List.head?_cons)
    simp [this]

/-- Stripping by `p` from the back is the identity when the last character (if any) fails
`p`. -/
theorem rstripBy_eq_self_of_last (p : Char → Bool) (l : List Char)
    (h : ∀ c, l.getLast? = some c → p c = false) : rstripBy p l = l := by
  unfold rstripBy
  rw [dropWhile_eq_self_of_head p l.reverse, List.reverse_reverse]
  intro c hc
  apply h
  rw [List.getLast?_eq_head?_reverse]
  exact hc

/-- Stripping by `p` at both ends is the identity when neither end satisfies `p`. -/
theorem stripBy_eq_self (p : Char → Bool) (l : List Char)
    (hh : ∀ c, l.head? = some c → p c = false)
    (hl : ∀ c, l.getLast? = some c → p c = false) : stripBy p l = l := by
  unfold stripBy lstripBy
  rw [dropWhile_eq_self_of_head p l hh, rstripBy_eq_self_of_last p l hl]

/-- A list with the fence as a prefix starts with a backtick. -/
theorem fence_prefix_head (l : List Char)
    (h : fence.isPrefixOf l = true) : l.head? = some backtick := by
  obtain ⟨t, rfl⟩ := List.isPrefixOf_iff_prefix.mp h
  rfl

/-- A list with the fence as a suffix ends with a backtick. -/
theorem fence_suffix_last (l : List Char)
    (h : fence.isSuffixOf l = true) : l.getLast? = some backtick := by
  obtain ⟨t, rfl⟩ := List.isSuffixOf_iff_suffix.mp h
  rw [List.getLast?_eq_head?_reverse, List.reverse_append]
  rfl

/-- The cleanup `strip_command` always ends with a `stripBy` over backticks. -/
theorem strip_command_eq_stripBy (l : List Char) :
    ∃ m : List Char, strip_command l = stripBy (fun c => c = backtick) m :=
  ⟨_, rfl⟩

/-- If one application of `strip_command` yields a whitespace-trimmed
list, a second application is the identity on it. -/
theorem strip_command_fixes_trimmed (l : List Char)
    (h : pyStrip (strip_command l) = strip_command l) :
    strip_command (strip_command l) = strip_command l := by
  obtain ⟨m, hm⟩ := strip_command_eq_stripBy l
  generalize hr : strip_command l = r at h hm ⊢
  have hhead : ∀ c, r.head? = some c →
      decide (c = backtick) = false := by
    intro c hc
    rw [hm] at hc
    exact stripBy_head _ m c hc
  have hlast : ∀ c, r.getLast? = some c →
      decide (c = backtick) = false := by
    intro c hc
    rw [hm] at hc
    exact stripBy_last _ m c hc
  have hpre : fence.isPrefixOf r = false := by
    cases hb : fence.isPrefixOf r
    · rfl
    · have := hhead backtick (fence_prefix_head _ hb)
      simp at this
  have hsuf : fence.isSuffixOf r = false := by
    cases hb : fence.isSuffixOf r
    · rfl
    · have := hlast backtick (fence_suffix_last _ hb)
      simp at this
  calc strip_command r
      = stripBy (fun c => c = backtick) r := by
        simp only [strip_command, h, hpre, hsuf, Bool.false_eq_true,
          if_false]
    _ = r := stripBy_eq_self _ _ hhead hlast

/-- C3 counterexample: `strip_command` is not idempotent.  On the input
consisting of a backtick, a space, `a`, a space and a backtick, one
application returns the string space-`a`-space (backtick stripping
exposes whitespace), and a second application returns just `a`. -/
theorem strip_command_not_idempotent :
    strip_command_str (strip_command_str "` a `")
      ≠ strip_command_str "` a `" := by decide

/-- C3 (amended): `strip_command` returns "echo hi" on the fenced input,
"ls -la" on the backticked padded input, and "ls -la" unchanged on the
bare input; it is not idempotent in general, but applying it twice equals
applying it once whenever the first application's result carries no
leading or trailing whitespace. -/
theorem strip_command_examples_and_conditional_idem :
    strip_command_str "```\necho hi\n```" = "echo hi" ∧
    strip_command_str "  `ls -la`  " = "ls -la" ∧
    strip_command_str "ls -la" = "ls -la" ∧
    ∀ l : List Char, pyStrip (strip_command l) = strip_command l →
      strip_command (strip_command l) = strip_command l :=
  ⟨by decide, by decide, by decide, strip_command_fixes_trimmed⟩

/-- Witness for `strip_command_examples_and_conditional_idem` on a
trimmed result. -/
theorem strip_command_conditional_idem_witness :
    strip_command (strip_command ("ls -la".data))
      = strip_command ("ls -la".data) :=
  strip_command_examples_and_conditional_idem.2.2.2 ("ls -la".data)
    (by decide)

/-- C4 counterexample: on the model response backtick-space-`a`-backtick-
`b`-space-backtick, the cleanup returns space-`a`-backtick-`b`-space,
which still contains a backtick character and has leading and trailing
whitespace. -/
theorem strip_command_keeps_backtick_and_space :
    strip_command_str "` a`b `" = " a`b " ∧
    backtick ∈ (strip_command_str "` a`b `").data ∧
    pyStripS (strip_command_str "` a`b `") ≠ strip_command_str "` a`b `" :=
  by decide

/-- C4 (amended): the cleanup strips a single leading and trailing fence
if present, then surrounding whitespace, then leading and trailing
backtick characters, so the returned command never starts or ends with a
backtick; interior backticks may remain and backtick stripping may
expose leading or trailing whitespace. -/
theorem strip_command_no_edge_backtick (s : String) :
    (strip_command_str s).data.head? ≠ some backtick ∧
    (strip_command_str s).data.getLast? ≠ some backtick := by
  obtain ⟨m, hm⟩ := strip_command_eq_stripBy s.data
  have hd : (strip_command_str s).data = strip_command s.data := rfl
  constructor
  · intro hc
    rw [hd, hm] at hc
    have := stripBy_head _ m backtick hc
    simp at this
  · intro hc
    rw [hd, hm] at hc
    have := stripBy_last _ m backtick hc
    simp at this

end Tell
